import Mathlib

/-!
Shallow embedding of the FixIT annotation-overlay frontend: the YOLO
detector fusion pipeline (`yoloDetection` service), the tracking-status
state machine and anchor-based coordinate resolver (`VideoCapture.jsx`),
the linear-fallback resolver and remote-vision rescaling
(the toggled `VideoCapture` variant), and the annotation store and sync
protocol (`useAnnotations` hook, `App.js`).

Pixel coordinates, confidences and model-space positions are rationals;
JavaScript id values (numbers, strings, `null`) are an explicit sum type.
-/

namespace FixIT

/-- A pixel-space bounding box, as stored in `detectedBox`:
`{x, y, width, height}` (category/score carried separately where needed). -/
structure BBox where
  x : ℚ
  y : ℚ
  width : ℚ
  height : ℚ
deriving DecidableEq, Repr

/-- One raw detection as surfaced by the MediaPipe detector in
`YOLODetector.detectObjects`: the head category's name and score plus the
bounding box (`det.categories[0]`, `det.boundingBox`). -/
structure Det where
  category : String
  score : ℚ
  bbox : BBox
deriving DecidableEq, Repr

/-- The allow-list filter from `YOLODetector.detectObjects`:
`categoryName === 'bottle' || 'wine glass' || 'cup'`. -/
def allowedCategory (c : String) : Bool :=
  c == "bottle" || c == "wine glass" || c == "cup"

/-- Head of a stable descending sort by score: the earliest element
attaining the maximum score, `none` on the empty list.  This is what
`bottleObjects.sort((a, b) => b.score - a.score)` followed by
`objects[0]` yields. -/
def bestByScore : List Det → Option Det
  | [] => none
  | d :: ds =>
    match bestByScore ds with
    | none => some d
    | some b => if b.score > d.score then some b else some d

/-- `YOLODetector.detectObjects` on the raw detection list: keep only
allow-listed categories (people, chairs, … are discarded), then sort by
confidence descending. `detectBottle` then returns the head or `null`;
`bestByScore` fuses the sort-and-take-head step. -/
def detectBottle (ds : List Det) : Option Det :=
  bestByScore (ds.filter (fun d => allowedCategory d.category))

/-- Operator-facing tracking status (`trackingStatus` state in
`VideoCapture.jsx`: strings searching / locked / lost). -/
inductive Status where
  | searching
  | locked
  | lost
deriving DecidableEq, Repr

/-- Outcome of one detection cycle inside `detectLoop`: `detectBottle`
returned a box, returned `null`, or threw. -/
inductive CycleOutcome where
  | yieldsBox (d : Det)
  | noBox
  | errored
deriving DecidableEq, Repr

/-- The per-cycle status update in `detectLoop`: a detection sets
`locked`, `null` sets `searching`, a caught exception sets `lost`.
The new status does not depend on the previous one. -/
def stepStatus : CycleOutcome → Status
  | .yieldsBox _ => .locked
  | .noBox => .searching
  | .errored => .lost

/-- The initial value of the `trackingStatus` state hook. -/
def initialStatus : Status := .searching

/-- Status sequence produced by a sequence of detection cycles. -/
def statusTrace (os : List CycleOutcome) : List Status :=
  os.map stepStatus

/-! ### Coordinate resolver (`VideoCapture.jsx` draw loop) -/

/-- A calibration anchor: normalized fractions inside the bounding box
(`xPercent` / `yPercent` in the `calibration` state). -/
structure Anchor where
  xPercent : ℚ
  yPercent : ℚ
deriving DecidableEq, Repr

/-- The fixed calibration table of `VideoCapture.jsx`. -/
def calibrationCap : Anchor := ⟨1/2, 15/100⟩

/-- Middle anchor of the calibration table. -/
def calibrationMiddle : Anchor := ⟨1/2, 1/2⟩

/-- Bottom anchor of the calibration table. -/
def calibrationBottom : Anchor := ⟨1/2, 85/100⟩

/-- `pat` occurs as a prefix of `s` (character lists, JS `==` on chars). -/
def prefixMatch : List Char → List Char → Bool
  | [], _ => true
  | _ :: _, [] => false
  | c :: cs, d :: ds => c == d && prefixMatch cs ds

/-- `pat` occurs contiguously somewhere in `s`. -/
def hasInfix (s pat : List Char) : Bool :=
  match s with
  | [] => pat.isEmpty
  | _ :: rest => prefixMatch pat s || hasInfix rest pat

/-- JavaScript `s.includes(pat)` on strings. -/
def includes (s pat : String) : Bool :=
  hasInfix s.data pat.data

/-- JavaScript `s.toLowerCase()` for the ASCII labels used here. -/
def lowerStr (s : String) : String :=
  String.mk (s.data.map Char.toLower)

/-- The anchor-dispatch chain of the draw loop in `VideoCapture.jsx`:
lowercase the label, then test `cap`/`top`, then
`middle`/`center`/`body`, then `bottom`/`base`; default is the cap
anchor. -/
def anchorForLabel (label : String) : Anchor :=
  let l := lowerStr label
  if includes l "cap" || includes l "top" then calibrationCap
  else if includes l "middle" || includes l "center" || includes l "body" then
    calibrationMiddle
  else if includes l "bottom" || includes l "base" then calibrationBottom
  else calibrationCap

/-- Marker position inside a box for a given anchor:
`markerX = box.x + point.xPercent * box.width`,
`markerY = box.y + point.yPercent * box.height`. -/
def markerPos (b : BBox) (a : Anchor) : ℚ × ℚ :=
  (b.x + a.xPercent * b.width, b.y + a.yPercent * b.height)

/-- The coordinate resolver as consumed by the `VideoCapture.jsx` draw
loop: markers are computed only under the guard
`detectedBox && detectedBox.width > 0`. -/
def resolveVC (box : Option BBox) (label : String) : Option (ℚ × ℚ) :=
  match box with
  | none => none
  | some b => if b.width > 0 then some (markerPos b (anchorForLabel label)) else none

/-- The anchor lookup as the spec sentence words it: the first configured
calibration category (cap, middle, bottom in priority order) whose NAME is
a case-insensitive substring of the label; default anchor otherwise.
Written from the spec's words, to be compared with `anchorForLabel`. -/
def anchorForLabelSpec (label : String) : Anchor :=
  let l := lowerStr label
  if includes l "cap" then calibrationCap
  else if includes l "middle" then calibrationMiddle
  else if includes l "bottom" then calibrationBottom
  else calibrationCap

/-- A matcher-table entry: synonym substrings and the anchor they select. -/
def anchorTable : List (List String × Anchor) :=
  [(["cap", "top"], calibrationCap),
   (["middle", "center", "body"], calibrationMiddle),
   (["bottom", "base"], calibrationBottom)]

/-- Generic first-match-wins lookup over a matcher table (spec-side
formulation of substring dispatch). -/
def firstMatch (l : String) : List (List String × Anchor) → Anchor
  | [] => calibrationCap
  | (pats, a) :: rest =>
    if pats.any (fun p => includes l p) then a else firstMatch l rest

/-! ### Linear fallback resolver and remote-vision rescaling
(the toggled `VideoCapture` variant and `VideoCapture_Simple.jsx`) -/

/-- Model bounds for the linear fallback mapping (six scalars,
`modelBounds` state). -/
structure ModelBounds where
  minX : ℚ
  maxX : ℚ
  minY : ℚ
  maxY : ℚ
deriving DecidableEq, Repr

/-- The `modelBounds` constant of the toggled `VideoCapture` variant. -/
def defaultBounds : ModelBounds := ⟨-1/2, 1/2, -1, 1⟩

/-- An annotation as the resolvers consume it: a model-space position
(`[x3d, y3d, z3d]`) and a free-form label. -/
structure Annot3D where
  x3d : ℚ
  y3d : ℚ
  z3d : ℚ
  label : String
deriving DecidableEq, Repr

/-- The per-annotation body of the fallback draw loop:
`normalizedX = (x3d - minX) / (maxX - minX)`,
`normalizedY = (y3d - minY) / (maxY - minY)`,
`videoX = box.x + normalizedX * box.width`,
`videoY = box.y + (1 - normalizedY) * box.height`. -/
def linMarkerPos (mb : ModelBounds) (b : BBox) (a : Annot3D) : ℚ × ℚ :=
  let normalizedX := (a.x3d - mb.minX) / (mb.maxX - mb.minX)
  let normalizedY := (a.y3d - mb.minY) / (mb.maxY - mb.minY)
  (b.x + normalizedX * b.width, b.y + (1 - normalizedY) * b.height)

/-- The fallback resolver as consumed by its draw loop: annotations are
drawn only under the guard
`detectedBox && detectedBox.width > 0 && detectedBox.height > 0`. -/
def resolveLin (mb : ModelBounds) (box : Option BBox) (a : Annot3D) :
    Option (ℚ × ℚ) :=
  match box with
  | none => none
  | some b =>
    if b.width > 0 ∧ b.height > 0 then some (linMarkerPos mb b a) else none

/-- A point returned by the remote vision service, in downsample space. -/
structure VPoint where
  x : ℚ
  y : ℚ
deriving DecidableEq, Repr

/-- Optional named sub-landmarks in the remote response (`result.parts`). -/
structure VParts where
  cap : VPoint
  middle : VPoint
  bottom : VPoint
deriving DecidableEq, Repr

/-- The remote vision response body: `{detected, bbox, confidence, parts?}`. -/
structure VisionResp where
  detected : Bool
  bbox : BBox
  confidence : ℚ
  parts : Option VParts
deriving DecidableEq, Repr

/-- A detection box enriched with score and optional rescaled parts, as
`setDetectedBox` stores it in the vision branch. -/
structure VisionBox where
  bbox : BBox
  score : ℚ
  parts : Option VParts
deriving DecidableEq, Repr

/-- Scale a point by `(sx, sy)` (`p.x * scaleX`, `p.y * scaleY`). -/
def scalePoint (sx sy : ℚ) (p : VPoint) : VPoint :=
  ⟨p.x * sx, p.y * sy⟩

/-- The response-processing step of `detectWithVision`, with the native
and downsample dimensions abstracted:
`scaleX = nativeW / downW`, `scaleY = nativeH / downH`; on
`result.detected` every bbox and part coordinate is multiplied by the
matching scale, otherwise the box becomes `null`. -/
def processVision (nativeW nativeH downW downH : ℚ) (r : VisionResp) :
    Option VisionBox :=
  let scaleX := nativeW / downW
  let scaleY := nativeH / downH
  if r.detected then
    some
      { bbox :=
          ⟨r.bbox.x * scaleX, r.bbox.y * scaleY,
           r.bbox.width * scaleX, r.bbox.height * scaleY⟩
        score := r.confidence
        parts :=
          match r.parts with
          | some ps =>
            some
              ⟨scalePoint scaleX scaleY ps.cap,
               scalePoint scaleX scaleY ps.middle,
               scalePoint scaleX scaleY ps.bottom⟩
          | none => none }
  else none

/-- `detectWithVision`'s processing with the constants of the source:
native `1280x720`, downsample canvas `640x480`. -/
def processVisionSrc (r : VisionResp) : Option VisionBox :=
  processVision 1280 720 640 480 r

/-! ### Annotation store and sync protocol (`useAnnotations`, `App.js`) -/

/-- A JavaScript id value as the store sees it: `null`, a number
(`Date.now()`), or a string. -/
inductive JsId where
  | null
  | num (n : Int)
  | str (s : String)
deriving DecidableEq, Repr

/-- JavaScript truthiness of an id (`annotation.id || Date.now()`):
`null`, `0` and the empty string are falsy. -/
def truthy : JsId → Bool
  | .null => false
  | .num n => n != 0
  | .str s => s != ""

/-- A stored annotation: id plus opaque payload (position and label do not
matter to the store operations). -/
structure StoreAnn where
  id : JsId
  payload : String
deriving DecidableEq, Repr

/-- A message on the persistent channel
(`{type: annotation_added | annotation_removed, ...}`). -/
inductive Msg where
  | added (a : StoreAnn)
  | removed (id : JsId)
  | other
deriving DecidableEq, Repr

/-- `addAnnotation`: build `newAnn` with `id: annotation.id || Date.now()`,
append it locally, and broadcast an added message when the channel is
open (`websocket.readyState === OPEN`). Returns the new store and the
list of messages sent. -/
def addAnnot (now : Int) (wsOpen : Bool) (a : StoreAnn) (st : List StoreAnn) :
    List StoreAnn × List Msg :=
  let newAnn : StoreAnn := { a with id := if truthy a.id then a.id else .num now }
  (st ++ [newAnn], if wsOpen then [Msg.added newAnn] else [])

/-- `removeAnnotation`: `prev.filter(ann => ann.id !== id)`, then
broadcast a removed message when the channel is open. There is no special
case for any id value. -/
def removeAnnot (wsOpen : Bool) (id : JsId) (st : List StoreAnn) :
    List StoreAnn × List Msg :=
  (st.filter (fun ann => ann.id != id), if wsOpen then [Msg.removed id] else [])

/-- `resetApp` in `App.js`: `removeAnnotation(null) // Clear all`. -/
def resetAppStore (wsOpen : Bool) (st : List StoreAnn) :
    List StoreAnn × List Msg :=
  removeAnnot wsOpen .null st

/-- The channel message listener (`handleMessage`): an added message
appends, a removed message filters, any other type falls through with the
store untouched; nothing is re-broadcast. -/
def handleMsg (m : Msg) (st : List StoreAnn) : List StoreAnn :=
  match m with
  | .added a => st ++ [a]
  | .removed id => st.filter (fun ann => ann.id != id)
  | .other => st

/-! ### Remote-detection cycle state (`detectWithVision` error path) -/

/-- The shared state a vision cycle can touch: the current box, the
channel-connectivity flag and the annotation store. -/
structure CycleState where
  box : Option VisionBox
  wsConnected : Bool
  store : List StoreAnn
deriving DecidableEq, Repr

/-- Outcome of one remote detection request: a parsed response, or a
network error (rejected `fetch`). -/
inductive FetchOutcome where
  | response (r : VisionResp)
  | networkError
deriving DecidableEq, Repr

/-- One `detectWithVision` cycle over the shared state: a response updates
the box through `processVisionSrc`; a network error is caught by the
`catch` block, which only logs — the box, the channel and the store are
left exactly as they were, and nothing is rethrown. -/
def visionCycle (st : CycleState) : FetchOutcome → CycleState
  | .response r => { st with box := processVisionSrc r }
  | .networkError => st

/-! ### Helper lemmas -/

lemma bestByScore_eq_none {l : List Det} : bestByScore l = none ↔ l = [] := by
  constructor
  · intro h
    cases l with
    | nil => rfl
    | cons d ds =>
      simp only [bestByScore] at h
      cases hb : bestByScore ds with
      | none => simp [hb] at h
      | some b =>
        rw [hb] at h
        by_cases hs : b.score > d.score <;> simp [hs] at h
  · intro h; subst h; rfl

lemma bestByScore_spec {l : List Det} {b : Det} (h : bestByScore l = some b) :
    b ∈ l ∧ ∀ e ∈ l, e.score ≤ b.score := by
  induction l generalizing b with
  | nil => simp [bestByScore] at h
  | cons d ds ih =>
    rw [bestByScore] at h
    cases hb : bestByScore ds with
    | none =>
      simp only [hb, Option.some.injEq] at h
      subst h
      have hds : ds = [] := bestByScore_eq_none.mp hb
      subst hds
      simp
    | some c =>
      simp only [hb] at h
      have ihc := ih hb
      by_cases hs : c.score > d.score
      · rw [if_pos hs] at h
        injection h with h
        subst h
        refine ⟨List.mem_cons_of_mem _ ihc.1, ?_⟩
        intro e he
        rcases List.mem_cons.mp he with rfl | he2
        · exact le_of_lt hs
        · exact ihc.2 e he2
      · rw [if_neg hs] at h
        injection h with h
        subst h
        refine ⟨List.mem_cons_self _ _, ?_⟩
        intro e he
        rcases List.mem_cons.mp he with rfl | he2
        · exact le_refl _
        · exact le_trans (ihc.2 e he2) (le_of_not_lt hs)

/-! ### Claim theorems -/

/-- C1. The fused detector output is at most one detection (an `Option`);
when present it is drawn from the input, its category is in the allow-list
`{bottle, cup, wine glass}`, and its confidence is maximal among
allow-listed inputs; when no input is allow-listed the output is `none`
regardless of the discarded confidences; and on
`{person:0.9, bottle:0.4, chair:0.95}` the output is exactly the bottle
at confidence 0.4. -/
theorem c1_detectBottle_allowlist :
    (∀ (ds : List Det) (d : Det), detectBottle ds = some d →
      d ∈ ds ∧ allowedCategory d.category = true ∧
        ∀ e ∈ ds, allowedCategory e.category = true → e.score ≤ d.score) ∧
    (∀ ds : List Det, (∀ e ∈ ds, allowedCategory e.category = false) →
      detectBottle ds = none) ∧
    detectBottle
        [⟨"person", 9/10, ⟨0, 0, 10, 10⟩⟩,
         ⟨"bottle", 4/10, ⟨1, 1, 5, 5⟩⟩,
         ⟨"chair", 95/100, ⟨2, 2, 8, 8⟩⟩] =
      some ⟨"bottle", 4/10, ⟨1, 1, 5, 5⟩⟩ := by
  refine ⟨?_, ?_, rfl⟩
  · intro ds d h
    have hspec := bestByScore_spec h
    have hmem := List.mem_filter.mp hspec.1
    refine ⟨hmem.1, hmem.2, ?_⟩
    intro e he hall
    exact hspec.2 e (List.mem_filter.mpr ⟨he, hall⟩)
  · intro ds hall
    have : ds.filter (fun d => allowedCategory d.category) = [] := by
      rw [List.filter_eq_nil_iff]
      intro a ha
      simp [hall a ha]
    unfold detectBottle
    rw [this]
    rfl

/-- Witness for C1 at the concrete spec example. -/
theorem c1_witness :
    (⟨"bottle", 4/10, ⟨1, 1, 5, 5⟩⟩ : Det) ∈
        [(⟨"person", 9/10, ⟨0, 0, 10, 10⟩⟩ : Det),
         ⟨"bottle", 4/10, ⟨1, 1, 5, 5⟩⟩,
         ⟨"chair", 95/100, ⟨2, 2, 8, 8⟩⟩] ∧
      allowedCategory "bottle" = true ∧
      ∀ e ∈ [(⟨"person", 9/10, ⟨0, 0, 10, 10⟩⟩ : Det),
             ⟨"bottle", 4/10, ⟨1, 1, 5, 5⟩⟩,
             ⟨"chair", 95/100, ⟨2, 2, 8, 8⟩⟩],
        allowedCategory e.category = true →
          e.score ≤ (⟨"bottle", 4/10, ⟨1, 1, 5, 5⟩⟩ : Det).score :=
  c1_detectBottle_allowlist.1 _ _ c1_detectBottle_allowlist.2.2

/-- C2. The tracking-status step maps a yielded box to `locked`, an empty
result to `searching`, a raised error to `lost`; the initial status is
`searching`; the outcome sequence `[box, box, none, exception]` produces
the status sequence `[locked, locked, searching, lost]`. -/
theorem c2_statusMachine :
    initialStatus = Status.searching ∧
    (∀ d : Det, stepStatus (.yieldsBox d) = .locked) ∧
    stepStatus .noBox = .searching ∧
    stepStatus .errored = .lost ∧
    ∀ d1 d2 : Det,
      statusTrace [.yieldsBox d1, .yieldsBox d2, .noBox, .errored] =
        [.locked, .locked, .searching, .lost] :=
  ⟨rfl, fun _ => rfl, rfl, rfl, fun _ _ => rfl⟩

/-- C3 counterexample. On the label `"body"` the code's dispatch selects
the middle anchor (pixel y at half height), while the claim's rule —
match only the configured category NAMES cap/middle/bottom, else the
default anchor — selects the default cap anchor (pixel y at 0.15 height):
the resolver's output differs from the claim's prediction. -/
theorem c3_counterexample :
    resolveVC (some ⟨0, 0, 100, 100⟩) "body" = some (50, 50) ∧
    some (markerPos ⟨0, 0, 100, 100⟩ (anchorForLabelSpec "body")) =
      some ((50 : ℚ), (15 : ℚ)) ∧
    resolveVC (some ⟨0, 0, 100, 100⟩) "body" ≠
      some (markerPos ⟨0, 0, 100, 100⟩ (anchorForLabelSpec "body")) := by
  have hA : anchorForLabel "body" = calibrationMiddle := rfl
  have hB : anchorForLabelSpec "body" = calibrationCap := rfl
  have hbox : ((⟨0, 0, 100, 100⟩ : BBox)).width > 0 := by norm_num [BBox.width]
  refine ⟨?_, ?_, ?_⟩ <;>
    simp only [resolveVC, hA, hB, markerPos, calibrationMiddle, calibrationCap,
      if_pos hbox] <;>
    norm_num [BBox.x, BBox.y, BBox.width, BBox.height, Prod.ext_iff]

/-- C3 as amended: the dispatch is first-match-wins over the configured
matcher table in priority order cap, middle, bottom — where each category
matches its name OR its configured synonyms (`cap`/`top`,
`middle`/`center`/`body`, `bottom`/`base`) as a case-insensitive
substring of the label — with the cap anchor as default; the pixel is
`(box.x + anchor.x * width, box.y + anchor.y * height)`; and
`"Cap marker"` on box `{x:100, y:50, w:200, h:400}` resolves to
`(200, 110)`. -/
theorem c3_anchorResolution :
    (∀ (label : String) (b : BBox), 0 < b.width →
      resolveVC (some b) label =
        some (markerPos b (firstMatch (lowerStr label) anchorTable))) ∧
    resolveVC (some ⟨100, 50, 200, 400⟩) "Cap marker" = some (200, 110) := by
  constructor
  · intro label b hb
    have htab : firstMatch (lowerStr label) anchorTable = anchorForLabel label := by
      simp only [firstMatch, anchorTable, anchorForLabel, List.any_cons,
        List.any_nil, Bool.or_false, Bool.or_assoc]
    simp only [resolveVC, if_pos hb, htab]
  · have hA : anchorForLabel "Cap marker" = calibrationCap := rfl
    have hbox : ((⟨100, 50, 200, 400⟩ : BBox)).width > 0 := by norm_num [BBox.width]
    simp only [resolveVC, hA, markerPos, calibrationCap, if_pos hbox]
    norm_num [BBox.x, BBox.y, BBox.width, BBox.height, Prod.ext_iff]

/-- Witness for C3 at the concrete spec example. -/
theorem c3_witness :
    (0 : ℚ) < (⟨100, 50, 200, 400⟩ : BBox).width ∧
    resolveVC (some ⟨100, 50, 200, 400⟩) "Cap marker" =
      some (markerPos ⟨100, 50, 200, 400⟩
        (firstMatch (lowerStr "Cap marker") anchorTable)) :=
  ⟨by decide, c3_anchorResolution.1 "Cap marker" _ (by decide)⟩

/-- C4. On the remove-all sentinel (`removeAnnotation(null)`, the
`App.js` "Clear all" call) the code does NOT clear the store — it filters
out only annotations whose id is literally `null`, so any normally-added
annotation survives — and it DOES broadcast a removed message whenever
the channel is open: both halves of the claim fail, although the caller's
own comment documents the clear-all intent. -/
theorem c4_removeNull_behavior :
    resetAppStore true [⟨.num 1, "cap mark"⟩] =
      ([⟨.num 1, "cap mark"⟩], [Msg.removed .null]) ∧
    (∀ (wsOpen : Bool) (st : List StoreAnn),
      (∀ a ∈ st, a.id ≠ JsId.null) → (resetAppStore wsOpen st).1 = st) ∧
    (∀ st : List StoreAnn, (resetAppStore true st).2 = [Msg.removed .null]) := by
  refine ⟨rfl, ?_, fun _ => rfl⟩
  intro wsOpen st h
  simp only [resetAppStore, removeAnnot]
  exact List.filter_eq_self.mpr (fun a ha => by
    simpa [bne_iff_ne] using h a ha)

/-- Witness for C4 on a one-element store with a numeric id. -/
theorem c4_witness :
    (∀ a ∈ [(⟨.num 1, "x"⟩ : StoreAnn)], a.id ≠ JsId.null) ∧
    (resetAppStore false [(⟨.num 1, "x"⟩ : StoreAnn)]).1 = [⟨.num 1, "x"⟩] :=
  ⟨by decide, c4_removeNull_behavior.2.1 false _ (by decide)⟩

/-- C5 counterexample. A present box with `width = 100 > 0` but
`height = 0` (degenerate) still yields a pixel position from the
`VideoCapture.jsx` resolver, whose guard checks only the width: the
claimed "treated as no detection everywhere" fails at this consumer. -/
theorem c5_counterexample :
    (⟨0, 0, 100, 0⟩ : BBox).height ≤ 0 ∧
    resolveVC (some ⟨0, 0, 100, 0⟩) "middle mark" = some (50, 0) := by
  have hA : anchorForLabel "middle mark" = calibrationMiddle := rfl
  have hbox : ((⟨0, 0, 100, 0⟩ : BBox)).width > 0 := by norm_num
  refine ⟨by norm_num, ?_⟩
  simp only [resolveVC, hA, markerPos, calibrationMiddle, if_pos hbox]
  norm_num [Prod.ext_iff]

/-- C5 as amended: an absent box, or one with `width <= 0`, yields no
pixel position from either resolver; a box with `height <= 0` is
additionally suppressed by the linear-fallback resolver, but the
`VideoCapture.jsx` anchor resolver checks only the width. -/
theorem c5_noBoxSuppression :
    (∀ label, resolveVC none label = none) ∧
    (∀ mb a, resolveLin mb none a = none) ∧
    (∀ (b : BBox) (label : String), b.width ≤ 0 →
      resolveVC (some b) label = none) ∧
    (∀ (mb : ModelBounds) (b : BBox) (a : Annot3D),
      b.width ≤ 0 ∨ b.height ≤ 0 → resolveLin mb (some b) a = none) := by
  refine ⟨fun _ => rfl, fun _ _ => rfl, ?_, ?_⟩
  · intro b label h
    simp only [resolveVC, if_neg (not_lt.mpr h)]
  · intro mb b a h
    have hcond : ¬(b.width > 0 ∧ b.height > 0) := by
      rcases h with h | h
      · exact fun hc => absurd hc.1 (not_lt.mpr h)
      · exact fun hc => absurd hc.2 (not_lt.mpr h)
    simp only [resolveLin, if_neg hcond]

/-- Witness for C5 on concrete degenerate boxes. -/
theorem c5_witness :
    ((⟨0, 0, 0, 50⟩ : BBox).width ≤ 0 ∧
      resolveVC (some ⟨0, 0, 0, 50⟩) "cap" = none) ∧
    ((⟨0, 0, 50, 0⟩ : BBox).height ≤ 0 ∧
      resolveLin defaultBounds (some ⟨0, 0, 50, 0⟩) ⟨0, 0, 0, "m"⟩ = none) :=
  ⟨⟨by decide, c5_noBoxSuppression.2.2.1 _ "cap" (by decide)⟩,
   ⟨by decide, c5_noBoxSuppression.2.2.2 _ _ _ (Or.inr (by decide))⟩⟩

/-- C6. The linear fallback normalizes the annotation's model-space
coordinates by the bounds, inverts the vertical axis
(`videoY = box.y + (1 - normalizedY) * box.height`), the vertical
normalization lands in `[0, 1]` whenever the position is inside the
bounds, and with bounds `minY = -1, maxY = 1` and box
`{x:0, y:0, w:100, h:200}` an annotation at `y = 1` maps to pixel
`y = 0` while `y = -1` maps to pixel `y = 200`. -/
theorem c6_linearFallback :
    (∀ (mb : ModelBounds) (b : BBox) (a : Annot3D),
      0 < b.width → 0 < b.height →
      resolveLin mb (some b) a =
        some (b.x + ((a.x3d - mb.minX) / (mb.maxX - mb.minX)) * b.width,
              b.y + (1 - (a.y3d - mb.minY) / (mb.maxY - mb.minY)) * b.height)) ∧
    (∀ (mb : ModelBounds) (a : Annot3D),
      mb.minY < mb.maxY → mb.minY ≤ a.y3d → a.y3d ≤ mb.maxY →
      0 ≤ (a.y3d - mb.minY) / (mb.maxY - mb.minY) ∧
        (a.y3d - mb.minY) / (mb.maxY - mb.minY) ≤ 1) ∧
    resolveLin ⟨-1/2, 1/2, -1, 1⟩ (some ⟨0, 0, 100, 200⟩) ⟨0, 1, 0, "cap"⟩ =
      some (50, 0) ∧
    resolveLin ⟨-1/2, 1/2, -1, 1⟩ (some ⟨0, 0, 100, 200⟩) ⟨0, -1, 0, "base"⟩ =
      some (50, 200) := by
  have hpos : ((0 : ℚ) < 100 ∧ (0 : ℚ) < 200) := by norm_num
  refine ⟨?_, ?_, ?_, ?_⟩
  · intro mb b a hw hh
    simp only [resolveLin, if_pos (And.intro hw hh), linMarkerPos]
  · intro mb a hlt h1 h2
    have hden : (0 : ℚ) < mb.maxY - mb.minY := sub_pos.mpr hlt
    constructor
    · exact div_nonneg (sub_nonneg.mpr h1) (le_of_lt hden)
    · exact (div_le_one hden).mpr (sub_le_sub_right h2 _)
  · simp only [resolveLin, if_pos hpos, linMarkerPos]
    norm_num [Prod.ext_iff]
  · simp only [resolveLin, if_pos hpos, linMarkerPos]
    norm_num [Prod.ext_iff]

/-- Witness for C6 at integral bounds and a position inside them. -/
theorem c6_witness :
    resolveLin ⟨0, 1, -1, 1⟩ (some ⟨0, 0, 100, 200⟩) ⟨0, 0, 0, "m"⟩ =
      some (0 + ((0 - 0) / (1 - 0)) * 100, 0 + (1 - (0 - -1) / (1 - -1)) * 200) ∧
    (0 ≤ ((0 : ℚ) - -1) / (1 - -1) ∧ ((0 : ℚ) - -1) / (1 - -1) ≤ 1) :=
  ⟨c6_linearFallback.1 ⟨0, 1, -1, 1⟩ ⟨0, 0, 100, 200⟩ ⟨0, 0, 0, "m"⟩
      (by decide) (by decide),
   c6_linearFallback.2.1 ⟨0, 1, -1, 1⟩ ⟨0, 0, 0, "m"⟩
      (by decide) (by decide) (by decide)⟩

/-- C7. Every coordinate the remote detection call returns — the bbox
components and each optional part position — is rescaled by
`nativeWidth/downsampleWidth` on the x axis and
`nativeHeight/downsampleHeight` on the y axis (stated multiplicatively:
`scaled * downsample = raw * native`); bbox `(160,120,50,50)` at
downsample `320x240` with native `1280x720` rescales to
`(640,360,200,150)`; and the source instantiates the dimensions at
native `1280x720`, downsample `640x480`. -/
theorem c7_visionRescale :
    (∀ (nw nh dw dh : ℚ) (r : VisionResp) (vb : VisionBox),
      dw ≠ 0 → dh ≠ 0 →
      processVision nw nh dw dh r = some vb →
      r.detected = true ∧ vb.score = r.confidence ∧
      vb.bbox.x * dw = r.bbox.x * nw ∧
      vb.bbox.y * dh = r.bbox.y * nh ∧
      vb.bbox.width * dw = r.bbox.width * nw ∧
      vb.bbox.height * dh = r.bbox.height * nh ∧
      (∀ ps, r.parts = some ps →
        vb.parts = some
          ⟨scalePoint (nw / dw) (nh / dh) ps.cap,
           scalePoint (nw / dw) (nh / dh) ps.middle,
           scalePoint (nw / dw) (nh / dh) ps.bottom⟩)) ∧
    processVision 1280 720 320 240 ⟨true, ⟨160, 120, 50, 50⟩, 9/10, none⟩ =
      some ⟨⟨640, 360, 200, 150⟩, 9/10, none⟩ ∧
    (∀ r : VisionResp, processVisionSrc r = processVision 1280 720 640 480 r) := by
  refine ⟨?_, ?_, fun _ => rfl⟩
  · intro nw nh dw dh r vb hdw hdh h
    rw [processVision] at h
    by_cases hd : r.detected = true
    · rw [if_pos hd] at h
      injection h with h
      subst h
      refine ⟨hd, rfl, ?_, ?_, ?_, ?_, ?_⟩
      · show r.bbox.x * (nw / dw) * dw = r.bbox.x * nw
        field_simp
      · show r.bbox.y * (nh / dh) * dh = r.bbox.y * nh
        field_simp
      · show r.bbox.width * (nw / dw) * dw = r.bbox.width * nw
        field_simp
      · show r.bbox.height * (nh / dh) * dh = r.bbox.height * nh
        field_simp
      · intro ps hps
        simp [hps]
    · rw [if_neg hd] at h
      exact absurd h (by simp)
  · simp only [processVision, if_pos rfl]
    norm_num [VisionBox.mk.injEq, BBox.mk.injEq]

/-- Witness for C7 at the concrete spec example. -/
theorem c7_witness :
    (640 : ℚ) * 320 = 160 * 1280 ∧ (360 : ℚ) * 240 = 120 * 720 ∧
    (200 : ℚ) * 320 = 50 * 1280 ∧ (150 : ℚ) * 240 = 50 * 720 := by
  have h := c7_visionRescale.1 1280 720 320 240
      ⟨true, ⟨160, 120, 50, 50⟩, 9/10, none⟩ ⟨⟨640, 360, 200, 150⟩, 9/10, none⟩
      (by decide) (by decide) c7_visionRescale.2.1
  exact ⟨h.2.2.1, h.2.2.2.1, h.2.2.2.2.1, h.2.2.2.2.2.1⟩

/-- C8. Applying an `annotation_removed` message to the store is
idempotent: applying it twice equals applying it once, the result
contains no annotation with the removed id, and the handler is a total
function (no error). -/
theorem c8_removeIdempotent :
    ∀ (id : JsId) (st : List StoreAnn),
      handleMsg (.removed id) (handleMsg (.removed id) st) =
        handleMsg (.removed id) st ∧
      ∀ a ∈ handleMsg (.removed id) st, a.id ≠ id := by
  intro id st
  constructor
  · simp only [handleMsg]
    rw [List.filter_filter]
    simp
  · intro a ha
    have hmem := (List.mem_filter.mp ha).2
    simpa [bne_iff_ne] using hmem

/-- Witness for C8 on a concrete two-element store and id `"a1"`. -/
theorem c8_witness :
    handleMsg (.removed (.str "a1"))
        (handleMsg (.removed (.str "a1"))
          [⟨.str "a1", "p"⟩, ⟨.num 2, "q"⟩]) =
      handleMsg (.removed (.str "a1")) [⟨.str "a1", "p"⟩, ⟨.num 2, "q"⟩] ∧
    (⟨.num 2, "q"⟩ : StoreAnn).id ≠ JsId.str "a1" :=
  ⟨(c8_removeIdempotent (.str "a1") [⟨.str "a1", "p"⟩, ⟨.num 2, "q"⟩]).1,
   (c8_removeIdempotent (.str "a1") [⟨.str "a1", "p"⟩, ⟨.num 2, "q"⟩]).2
      ⟨.num 2, "q"⟩ (by decide)⟩

/-- C9 counterexample. A cycle whose fetch fails does NOT set the
no-detection value: starting from a state holding a box, the network
error leaves that same box in place (the `catch` only logs), so the
cycle's current `DetectionBox` is not `none`. -/
theorem c9_counterexample :
    visionCycle ⟨some ⟨⟨1, 2, 3, 4⟩, 1/2, none⟩, true, []⟩ .networkError =
      ⟨some ⟨⟨1, 2, 3, 4⟩, 1/2, none⟩, true, []⟩ ∧
    (visionCycle ⟨some ⟨⟨1, 2, 3, 4⟩, 1/2, none⟩, true, []⟩
        .networkError).box ≠ none := by
  refine ⟨rfl, ?_⟩
  simp [visionCycle]

/-- C9 as amended: on a network failure the remote-detection cycle is a
no-op — the previous `DetectionBox` is retained rather than reset, the
channel-connectivity flag and annotation store are unchanged, and the
cycle is a total function (no exception propagates); no cycle outcome
ever touches the channel or the store; and only a successful response
with `detected: false` sets the box to the no-detection value. -/
theorem c9_errorSilent :
    (∀ st : CycleState, visionCycle st .networkError = st) ∧
    (∀ (st : CycleState) (o : FetchOutcome),
      (visionCycle st o).wsConnected = st.wsConnected ∧
      (visionCycle st o).store = st.store) ∧
    (∀ (st : CycleState) (r : VisionResp), r.detected = false →
      (visionCycle st (.response r)).box = none) := by
  refine ⟨fun st => rfl, fun st o => ?_, fun st r hr => ?_⟩
  · cases o <;> exact ⟨rfl, rfl⟩
  · simp [visionCycle, processVisionSrc, processVision, hr]

/-- Witness for C9 on a `detected: false` response. -/
theorem c9_witness :
    (⟨false, ⟨0, 0, 0, 0⟩, 0, none⟩ : VisionResp).detected = false ∧
    (visionCycle ⟨none, true, []⟩
        (.response ⟨false, ⟨0, 0, 0, 0⟩, 0, none⟩)).box = none :=
  ⟨rfl, c9_errorSilent.2.2 ⟨none, true, []⟩ ⟨false, ⟨0, 0, 0, 0⟩, 0, none⟩ rfl⟩

/-- C10. `addAnnotation` keeps a truthy caller-supplied id unchanged; a
falsy id (`null`, `0`, `""`) is silently replaced by the wall-clock value
`Date.now()`, both in the stored annotation and in the broadcast message;
and the generated numeric id differs from `0` (when the clock is nonzero)
and from every string id. -/
theorem c10_idGeneration :
    (∀ (now : Int) (wsOpen : Bool) (a : StoreAnn) (st : List StoreAnn),
      truthy a.id = true → addAnnot now wsOpen a st =
        (st ++ [a], if wsOpen then [Msg.added a] else [])) ∧
    (∀ (now : Int) (wsOpen : Bool) (a : StoreAnn) (st : List StoreAnn),
      truthy a.id = false → addAnnot now wsOpen a st =
        (st ++ [{a with id := .num now}],
         if wsOpen then [Msg.added {a with id := .num now}] else [])) ∧
    (truthy .null = false ∧ truthy (.num 0) = false ∧
      truthy (.str "") = false ∧
      ∀ n : Int, n ≠ 0 → truthy (.num n) = true) ∧
    (∀ (now : Int) (p : String) (st : List StoreAnn),
      addAnnot now true ⟨.num 0, p⟩ st =
        (st ++ [⟨.num now, p⟩], [Msg.added ⟨.num now, p⟩]) ∧
      addAnnot now true ⟨.str "", p⟩ st =
        (st ++ [⟨.num now, p⟩], [Msg.added ⟨.num now, p⟩])) ∧
    (∀ now : Int, now ≠ 0 → JsId.num now ≠ JsId.num 0) ∧
    (∀ (now : Int) (s : String), JsId.num now ≠ JsId.str s) := by
  refine ⟨?_, ?_, ⟨rfl, rfl, rfl, ?_⟩, ?_, ?_, ?_⟩
  · intro now wsOpen a st h
    simp [addAnnot, h]
  · intro now wsOpen a st h
    simp [addAnnot, h]
  · intro n hn
    simp [truthy, hn]
  · intro now p st
    exact ⟨rfl, rfl⟩
  · intro now h hc
    injection hc with hc
    exact h hc
  · intro now s hc
    exact JsId.noConfusion hc

/-- Witness for C10: a truthy id `5` is kept, the falsy id `0` is
replaced by the clock value `7`, which differs from `0`. -/
theorem c10_witness :
    truthy (JsId.num 5) = true ∧
    addAnnot 7 true ⟨.num 5, "p"⟩ [] =
      ([⟨.num 5, "p"⟩], [Msg.added ⟨.num 5, "p"⟩]) ∧
    truthy (JsId.num 0) = false ∧
    addAnnot 7 true ⟨.num 0, "p"⟩ [] =
      ([⟨.num 7, "p"⟩], [Msg.added ⟨.num 7, "p"⟩]) ∧
    JsId.num 7 ≠ JsId.num 0 := by
  refine ⟨rfl, ?_, rfl, ?_, ?_⟩
  · exact c10_idGeneration.1 7 true ⟨.num 5, "p"⟩ [] rfl
  · exact c10_idGeneration.2.1 7 true ⟨.num 0, "p"⟩ [] rfl
  · exact c10_idGeneration.2.2.2.2.1 7 (by decide)

end FixIT
